import Mathlib

/-! Verification model of the `telkom_ddp_tracker` repository.

The repository is a client-side internship tracker.  The model below embeds
the pieces of the source that the claims of the specification are about:

* the timeline layout of `src/components/Projects.tsx` (`timelineData`, the
  month-gridline loop, and the per-project bar percentages),
* the log filter of the Logbook component (`displayedLogs`),
* the text-generation service of `src/services/geminiService.ts`,
* the `saveLog` / `deleteLog` mutations of `src/App.tsx`.

JavaScript `Date` values are modelled as integer milliseconds since the Unix
epoch, in a fixed-offset (DST-free, UTC-like) locale: `setDate(getDate() + n)`
is adding `n * 86400000` milliseconds, and the civil-calendar operations
(`setDate(1)`, `setMonth(m+1)`) are carried out with a proleptic Gregorian
calendar embedded below.  Percentages use exact rationals in place of IEEE
doubles; the quantities involved are far below any double-rounding scale that
would change a comparison in the claims.
-/

namespace DDP

/-- Milliseconds per civil day. -/
def msPerDay : ℤ := 86400000

/-- Gregorian leap-year rule. -/
def isLeap (y : ℤ) : Bool := (y % 4 == 0 && y % 100 != 0) || (y % 400 == 0)

/-- Days before (0-based) month `m` within a non-leap year. -/
def monthOffset : ℕ → ℤ
  | 0 => 0
  | 1 => 31
  | 2 => 59
  | 3 => 90
  | 4 => 120
  | 5 => 151
  | 6 => 181
  | 7 => 212
  | 8 => 243
  | 9 => 273
  | 10 => 304
  | _ => 334

/-- Days from 0000-01-01 to the first day of year `y` (proleptic Gregorian,
with year 0 a leap year). -/
def daysBeforeYear (y : ℤ) : ℤ :=
  365 * y + (y - 1) / 4 - (y - 1) / 100 + (y - 1) / 400 + 1

/-- Unix day number of the first day of (0-based) month `m` of year `y`. -/
def firstDayOfMonth (y : ℤ) (m : ℕ) : ℤ :=
  daysBeforeYear y + monthOffset m + (if 2 ≤ m ∧ isLeap y then 1 else 0) - 719528

/-- Unix day number of year `y`, 0-based month `m`, day-of-month `d`. -/
def dayNumber (y : ℤ) (m : ℕ) (d : ℤ) : ℤ :=
  firstDayOfMonth y m + (d - 1)

/-- A civil date as stored in the ISO `YYYY-MM-DD` strings of the app
(month is 1-based here, as in ISO). -/
structure Ymd where
  year : ℤ
  month : ℕ
  day : ℤ
deriving DecidableEq

/-- Timestamp (ms) of midnight UTC on a civil date: the value of
`new Date("YYYY-MM-DD").getTime()`. -/
def ymdMs (x : Ymd) : ℤ := dayNumber x.year (x.month - 1) x.day * msPerDay

/-- Civil (year, 0-based month) of a Unix day number; the calendar part of
reading `getFullYear()` / `getMonth()` off a timestamp. -/
def civilFromDay (z0 : ℤ) : ℤ × ℕ :=
  let z := z0 + 719468
  let era := z / 146097
  let doe := z - era * 146097
  let yoe := (doe - doe / 1460 + doe / 36524 - doe / 146096) / 365
  let doy := doe - (365 * yoe + yoe / 4 - yoe / 100)
  let mp := (5 * doy + 2) / 153
  let m := mp + (if mp < 10 then 3 else -9)
  (yoe + era * 400 + (if m ≤ 2 then 1 else 0), (m - 1).toNat)

/-- First-of-month timestamp day for a linear month index `k = 12*year + month`. -/
def firstDayIdx (k : ℤ) : ℤ := firstDayOfMonth (k / 12) (k % 12).toNat

theorem daysBeforeYear_succ (y : ℤ) :
    daysBeforeYear (y + 1) - daysBeforeYear y = 365 + (if isLeap y then 1 else 0) := by
  have hL : (isLeap y = true) ↔ ((y % 4 = 0 ∧ ¬ y % 100 = 0) ∨ y % 400 = 0) := by
    simp [isLeap]
  simp only [daysBeforeYear]
  split
  · rw [hL] at *
    omega
  · rename_i h
    rw [hL] at h
    omega

theorem firstDayOfMonth_lt_succ (y : ℤ) (m : ℕ) (hm : m < 11) :
    firstDayOfMonth y m < firstDayOfMonth y (m + 1) := by
  interval_cases m <;>
    simp only [firstDayOfMonth, monthOffset] <;>
    split_ifs <;>
    omega

theorem firstDayIdx_lt_succ (k : ℤ) : firstDayIdx k < firstDayIdx (k + 1) := by
  rcases lt_or_ge (k % 12) 11 with h | h
  · have h1 : (k + 1) / 12 = k / 12 := by omega
    have h2 : ((k + 1) % 12).toNat = (k % 12).toNat + 1 := by omega
    rw [firstDayIdx, firstDayIdx, h1, h2]
    exact firstDayOfMonth_lt_succ _ _ (by omega)
  · have h11 : (k % 12).toNat = 11 := by omega
    have h1 : (k + 1) / 12 = k / 12 + 1 := by omega
    have h2 : ((k + 1) % 12).toNat = 0 := by omega
    rw [firstDayIdx, firstDayIdx, h1, h2, h11]
    have hy := daysBeforeYear_succ (k / 12)
    simp only [firstDayOfMonth, monthOffset]
    split_ifs at hy ⊢ <;> omega

/-- One month gridline of the timeline header: the rendered label and its
horizontal offset in percent (`months` entries of `timelineData`). -/
structure GridMonth where
  label : String
  left : ℚ
deriving DecidableEq

/-- Abbreviated month name, as produced for the `en` default locale by
`toLocaleDateString` with a short month style. -/
def monthName : ℕ → String
  | 0 => "Jan"
  | 1 => "Feb"
  | 2 => "Mar"
  | 3 => "Apr"
  | 4 => "May"
  | 5 => "Jun"
  | 6 => "Jul"
  | 7 => "Aug"
  | 8 => "Sep"
  | 9 => "Oct"
  | 10 => "Nov"
  | _ => "Dec"

/-- Two-digit year rendering. -/
def twoDigitYear (y : ℤ) : String :=
  let r := (y % 100).toNat
  if r < 10 then "0" ++ toString r else toString r

/-- Label of the gridline at linear month index `k`. -/
def monthLabel (k : ℤ) : String :=
  monthName (k % 12).toNat ++ " " ++ twoDigitYear (k / 12)

/-- Percent offset of timestamp `t` in the window starting at `minT` of length
`total` ms: the expression `((iterTime - minDate.getTime()) / totalDuration) * 100`. -/
def leftPercent (minT total t : ℤ) : ℚ :=
  ((t : ℚ) - (minT : ℚ)) / (total : ℚ) * 100

/-- Body of one iteration of the month-header loop: the (zero- or
one-element) list pushed for month index `k`. -/
def gridItem (minT total ofs : ℤ) (k : ℤ) : List GridMonth :=
  if minT ≤ firstDayIdx k * msPerDay + ofs then
    if 0 ≤ leftPercent minT total (firstDayIdx k * msPerDay + ofs) ∧
        leftPercent minT total (firstDayIdx k * msPerDay + ofs) ≤ 100 then
      [⟨monthLabel k, leftPercent minT total (firstDayIdx k * msPerDay + ofs)⟩]
    else []
  else []

/-- The `while (currentIter <= maxDate)` month-header loop of `timelineData`.
The iterator is the first of the month at linear index `k`, carrying the
time-of-day `ofs` inherited from `minDate` (the loop starts from a copy of
`minDate` with only the day-of-month set to 1). -/
def monthLoop (minT maxT ofs : ℤ) (k : ℤ) : List GridMonth :=
  if _h : firstDayIdx k * msPerDay + ofs ≤ maxT then
    gridItem minT (maxT - minT) ofs k ++ monthLoop minT maxT ofs (k + 1)
  else []
termination_by (maxT + 1 - (firstDayIdx k * msPerDay + ofs)).toNat
decreasing_by
  have hk := firstDayIdx_lt_succ k
  simp only [msPerDay] at *
  omega

/-- The generated month headers for a padded window `[minT, maxT]`. -/
def timelineMonths (minT maxT : ℤ) : List GridMonth :=
  let c := civilFromDay (minT / msPerDay)
  monthLoop minT maxT (minT % msPerDay) (12 * c.1 + (c.2 : ℤ))

/-- A project record; only the fields the timeline layout reads are kept.
`startDate` and `endDate` are the optional ISO date strings (an absent or
empty string is `none`). -/
structure Project where
  id : String
  name : String
  startDate : Option Ymd
  endDate : Option Ymd
deriving DecidableEq

/-- Normalized interval start: `p.startDate ? new Date(p.startDate) : new Date()`. -/
def startMs (p : Project) (now : ℤ) : ℤ :=
  match p.startDate with
  | some d => ymdMs d
  | none => now

/-- Normalized interval end:
`p.endDate ? new Date(p.endDate) : new Date(start.getTime() + 86400000 * 30)`. -/
def endMs (p : Project) (now : ℤ) : ℤ :=
  match p.endDate with
  | some d => ymdMs d
  | none => startMs p now + 86400000 * 30

/-- The `p.startDate || p.endDate` truthiness test selecting `validProjects`. -/
def hasDate (p : Project) : Bool :=
  p.startDate.isSome || p.endDate.isSome

/-- One step of the bounds scan:
`if (start < minDate) minDate = start; if (end > maxDate) maxDate = end`. -/
def boundsStep (now : ℤ) (acc : ℤ × ℤ) (q : Project) : ℤ × ℤ :=
  ((if startMs q now < acc.1 then startMs q now else acc.1),
   (if acc.2 < endMs q now then endMs q now else acc.2))

/-- The bounds scan of `timelineData`: element 0 overwrites the initial
`new Date()` values, later elements fold in by strict comparison. -/
def computeBounds (now : ℤ) : List Project → ℤ × ℤ
  | [] => (now, now)
  | p :: ps => ps.foldl (boundsStep now) (startMs p now, endMs p now)

/-- Result record of the timeline layout pass. -/
structure TimelineData where
  minDate : ℤ
  maxDate : ℤ
  totalDuration : ℤ
  months : List GridMonth

/-- The `timelineData` memo of `Projects.tsx`: guard on an empty project
list, guard on no dated project, compute bounds, pad by 15 days before and
45 days after, guard on a collapsed window, and generate month headers. -/
def timelineData (projects : List Project) (now : ℤ) : Option TimelineData :=
  if projects = [] then none
  else
    let validProjects := projects.filter hasDate
    if validProjects = [] then none
    else
      let b := computeBounds now validProjects
      let minT := b.1 - 15 * msPerDay
      let maxT := b.2 + 45 * msPerDay
      let totalDuration := maxT - minT
      if totalDuration ≤ 0 then none
      else some ⟨minT, maxT, totalDuration, timelineMonths minT maxT⟩

/-- Percentages of one rendered project bar. -/
structure ProjectBar where
  startPercent : ℚ
  endPercent : ℚ
  widthPercent : ℚ
deriving DecidableEq

/-- The per-row bar of the timeline view:
`startPercent = Math.max(0, raw)`, `endPercent = Math.min(100, raw)`,
`widthPercent = Math.max(1, endPercent - startPercent)`. -/
def projectBar (minT total now : ℤ) (p : Project) : ProjectBar :=
  let startPercent := max 0 (leftPercent minT total (startMs p now))
  let endPercent := min 100 (leftPercent minT total (endMs p now))
  ⟨startPercent, endPercent, max 1 (endPercent - startPercent)⟩

/-- The bar formula as the spec states it in section 4.4: both edges clamped
to the closed interval from 0 to 100. Stated from the spec wording, for
comparison with `projectBar`. -/
def specBar (minT total now : ℤ) (p : Project) : ProjectBar :=
  let startPercent := min 100 (max 0 (leftPercent minT total (startMs p now)))
  let endPercent := min 100 (max 0 (leftPercent minT total (endMs p now)))
  ⟨startPercent, endPercent, max 1 (endPercent - startPercent)⟩

/-- The attendance enumeration of `types.ts`. -/
inductive AttendanceStatus where
  | Present
  | Permission
  | Sick
  | WFH
deriving DecidableEq

/-- The string value carried by each enum member. -/
def attendanceLabel : AttendanceStatus → String
  | .Present => "Present"
  | .Permission => "Permission"
  | .Sick => "Sick"
  | .WFH => "WFH"

/-- A daily log record (`DailyLog` of `types.ts`); the `date` field holds the
parsed ISO date string, attachments are irrelevant to the claims. -/
structure DailyLog where
  id : String
  date : Ymd
  attendance : AttendanceStatus
  activity : String
  learnings : String
  challenges : String
  tags : List String
deriving DecidableEq

/-- Case folding used by the search filter (`toLowerCase`). -/
def lowerStr (s : String) : String := s.map Char.toLower

/-- Whether `hay` begins with `needle`. -/
def startsWithChars : List Char → List Char → Bool
  | _, [] => true
  | [], _ :: _ => false
  | c :: cs, d :: ds => c == d && startsWithChars cs ds

/-- Whether `needle` occurs somewhere in `hay` (the JS `includes` test). -/
def includesChars (needle : List Char) : List Char → Bool
  | [] => needle.isEmpty
  | c :: t => startsWithChars (c :: t) needle || includesChars needle t

/-- `hay.includes(needle)` on strings. -/
def strIncludes (hay needle : String) : Bool := includesChars needle.data hay.data

/-- Step 1 of the filter: the record survives the week test, that is the
date is not strictly before `oneWeekAgo = now - 7 days` (where `now` keeps
its time of day). -/
def weekKeep (now : ℤ) (log : DailyLog) : Bool :=
  !(decide (ymdMs log.date < now - 7 * msPerDay))

/-- Step 2 of the filter: the lowercased query occurs in one of the three
text fields, each lowercased. -/
def contentMatch (searchQuery : String) (log : DailyLog) : Bool :=
  strIncludes (lowerStr log.activity) (lowerStr searchQuery) ||
  strIncludes (lowerStr log.learnings) (lowerStr searchQuery) ||
  strIncludes (lowerStr log.challenges) (lowerStr searchQuery)

/-- The predicate of the `displayedLogs` memo of the Logbook component,
with its early returns rendered as nested conditionals. -/
def logPred (filterWeek : Bool) (now : ℤ)
    (searchQuery selectedAttendance selectedTag : String) (log : DailyLog) : Bool :=
  if filterWeek && !(weekKeep now log) then false
  else if searchQuery != "" && !(contentMatch searchQuery log) then false
  else if selectedAttendance != "" && !(attendanceLabel log.attendance == selectedAttendance) then false
  else if selectedTag != "" && !(log.tags.contains selectedTag) then false
  else true

/-- `displayedLogs = logs.filter(...)`. -/
def displayedLogs (logs : List DailyLog) (filterWeek : Bool) (now : ℤ)
    (searchQuery selectedAttendance selectedTag : String) : List DailyLog :=
  logs.filter (logPred filterWeek now searchQuery selectedAttendance selectedTag)

/-- The filter as the spec states it in section 4.5: a conjunction of
predicates in which an inactive (empty) filter value is vacuously true.
Stated from the spec wording, for comparison with `logPred`. -/
def logPredConj (filterWeek : Bool) (now : ℤ)
    (searchQuery selectedAttendance selectedTag : String) (log : DailyLog) : Bool :=
  (!filterWeek || weekKeep now log) &&
  (searchQuery == "" || contentMatch searchQuery log) &&
  (selectedAttendance == "" || attendanceLabel log.attendance == selectedAttendance) &&
  (selectedTag == "" || log.tags.contains selectedTag)

/-- The week restriction as the spec states it: the record date falls in the
trailing 7-day window ending at evaluation time, compared date-only (no
time of day on either side). Stated from the spec wording, for comparison
with `weekKeep`. -/
def weekWindowSpec (now : ℤ) (log : DailyLog) : Bool :=
  decide (now / msPerDay - 7 ≤ ymdMs log.date / msPerDay ∧
    ymdMs log.date / msPerDay ≤ now / msPerDay)

/-- `generateTextImprovement` of `geminiService.ts`. The outside call is
modelled by its outcome: `Except.ok` is a response with a `text` payload,
`Except.error` is any thrown failure caught by the `try`-`catch`. A missing
credential short-circuits to the original draft. -/
def generateTextImprovement (apiKey : Option String) (call : Except String String)
    (currentText contextStr : String) : String :=
  match apiKey with
  | none => currentText
  | some _ =>
    match call with
    | .ok t => t.trim
    | .error _ => currentText

/-- `generateMonthlySummary` of `geminiService.ts`, modelled like
`generateTextImprovement`. -/
def generateMonthlySummary (apiKey : Option String) (call : Except String String)
    (logs : String) : String :=
  match apiKey with
  | none => "AI services unavailable."
  | some _ =>
    match call with
    | .ok t => t.trim
    | .error _ => "Failed to generate summary."

/-- The sort comparator of `saveLog`: `(a, b) => date(b) - date(a)` orders a
record before another when its date is the later one. -/
def logLe (a b : DailyLog) : Bool := decide (ymdMs b.date ≤ ymdMs a.date)

/-- `saveLog` of `App.tsx`: replace the record with a matching id if one
exists, otherwise prepend, then re-sort by date descending (JS `sort` is
stable; `mergeSort` is the stable sort here). -/
def saveLog (logs : List DailyLog) (log : DailyLog) : List DailyLog :=
  let found := (logs.find? (fun l => l.id == log.id)).isSome
  let newLogs :=
    if found then logs.map (fun l => if l.id == log.id then log else l)
    else log :: logs
  newLogs.mergeSort logLe

/-- `deleteLog` of `App.tsx`: drop the records with the given id. -/
def deleteLog (logs : List DailyLog) (i : String) : List DailyLog :=
  logs.filter (fun l => !(l.id == i))

/-- Log collections reachable from the initial empty collection through the
`saveLog` and `deleteLog` actions. -/
inductive ReachableLogs : List DailyLog → Prop
  | nil : ReachableLogs []
  | save {logs : List DailyLog} (log : DailyLog) :
      ReachableLogs logs → ReachableLogs (saveLog logs log)
  | del {logs : List DailyLog} (i : String) :
      ReachableLogs logs → ReachableLogs (deleteLog logs i)

/-! Concrete fixtures used by counterexamples and witnesses. -/

/-- A project spanning most of 2024. -/
def projA : Project := ⟨"a", "A", some ⟨2024, 1, 1⟩, some ⟨2024, 12, 31⟩⟩

/-- A reversed project entry: the start date lies far after the end date. -/
def projB : Project := ⟨"b", "B", some ⟨2026, 1, 1⟩, some ⟨2024, 2, 1⟩⟩

/-- A project with only a past end date. -/
def projE : Project := ⟨"e", "E", none, some ⟨2020, 1, 1⟩⟩

/-- A single-day project. -/
def projW : Project := ⟨"w", "W", some ⟨2024, 5, 1⟩, some ⟨2024, 5, 1⟩⟩

/-- A project with neither date set. -/
def pNoDates : Project := ⟨"n", "N", none, none⟩

/-- First project of the worked example of spec section 8. -/
def demoP1 : Project := ⟨"p1", "P1", some ⟨2024, 1, 10⟩, some ⟨2024, 1, 20⟩⟩

/-- Second project of the worked example of spec section 8. -/
def demoP2 : Project := ⟨"p2", "P2", some ⟨2024, 2, 1⟩, some ⟨2024, 2, 5⟩⟩

/-- Midnight at the start of 2024-06-15, the evaluation day of the week
filter examples. -/
def nowJune15 : ℤ := dayNumber 2024 5 15 * msPerDay

/-- A log record with a given id and date and empty text fields. -/
def mkLog (i : String) (d : Ymd) : DailyLog :=
  ⟨i, d, .Present, "", "", "", []⟩

/-- Log dated 2024-06-01. -/
def log0601 : DailyLog := mkLog "l1" ⟨2024, 6, 1⟩

/-- Log dated 2024-06-10. -/
def log0610 : DailyLog := mkLog "l2" ⟨2024, 6, 10⟩

/-- Log dated 2024-07-01, in the future of `nowJune15`. -/
def log0701 : DailyLog := mkLog "l3" ⟨2024, 7, 1⟩

end DDP

namespace DDP

/-! Theorems settling the claims. -/

/-- C7: neither text-generation operation propagates an error: with the
credential absent, `generateTextImprovement` returns the draft unchanged and
`generateMonthlySummary` returns its fixed unavailability string; with the
credential present and the outside call failing, the former returns the
draft unchanged and the latter returns its fixed failure string. -/
theorem c7_fallbacks (apiKey : Option String) (call : Except String String)
    (currentText contextStr logs : String) :
    (apiKey = none → generateTextImprovement apiKey call currentText contextStr = currentText) ∧
    (∀ e, call = Except.error e →
      generateTextImprovement apiKey call currentText contextStr = currentText) ∧
    (apiKey = none → generateMonthlySummary apiKey call logs = "AI services unavailable.") ∧
    (∀ k e, apiKey = some k → call = Except.error e →
      generateMonthlySummary apiKey call logs = "Failed to generate summary.") := by
  cases apiKey <;> cases call <;>
    simp [generateTextImprovement, generateMonthlySummary]

theorem monthLoop_stop (minT maxT ofs k : ℤ)
    (h : maxT < firstDayIdx k * msPerDay + ofs) :
    monthLoop minT maxT ofs k = [] := by
  rw [monthLoop.eq_def, dif_neg (by omega)]

theorem monthLoop_go (minT maxT ofs k : ℤ)
    (h : firstDayIdx k * msPerDay + ofs ≤ maxT) :
    monthLoop minT maxT ofs k =
      gridItem minT (maxT - minT) ofs k ++ monthLoop minT maxT ofs (k + 1) := by
  rw [monthLoop.eq_def, dif_pos h]

theorem leftPercent_lt (minT total : ℤ) (htot : 0 < total) {t1 t2 : ℤ} (h : t1 < t2) :
    leftPercent minT total t1 < leftPercent minT total t2 := by
  unfold leftPercent
  have htQ : (0 : ℚ) < (total : ℚ) := by exact_mod_cast htot
  have h2 : ((t1 : ℚ) - (minT : ℚ)) < ((t2 : ℚ) - (minT : ℚ)) := by
    have h3 : (t1 : ℚ) < (t2 : ℚ) := by exact_mod_cast h
    linarith
  have h4 : ((t1 : ℚ) - (minT : ℚ)) / (total : ℚ) < ((t2 : ℚ) - (minT : ℚ)) / (total : ℚ) :=
    div_lt_div_of_pos_right h2 htQ
  linarith

theorem gridItem_mem (minT total ofs k : ℤ) (g : GridMonth)
    (hg : g ∈ gridItem minT total ofs k) :
    g.left = leftPercent minT total (firstDayIdx k * msPerDay + ofs) ∧
    0 ≤ g.left ∧ g.left ≤ 100 := by
  unfold gridItem at hg
  split at hg
  · split at hg
    · rename_i hcond
      rw [List.mem_singleton] at hg
      subst hg
      exact ⟨rfl, hcond.1, hcond.2⟩
    · simp at hg
  · simp at hg

theorem monthLoop_inv (minT maxT ofs : ℤ) (htot : 0 < maxT - minT) :
    ∀ (n : ℕ) (k : ℤ), (maxT + 1 - (firstDayIdx k * msPerDay + ofs)).toNat ≤ n →
      (∀ g ∈ monthLoop minT maxT ofs k,
         0 ≤ g.left ∧ g.left ≤ 100 ∧
         leftPercent minT (maxT - minT) (firstDayIdx k * msPerDay + ofs) ≤ g.left) ∧
      List.Pairwise (fun a b => a.left < b.left) (monthLoop minT maxT ofs k) := by
  intro n
  induction n with
  | zero =>
    intro k hk
    have hstop : maxT < firstDayIdx k * msPerDay + ofs := by omega
    rw [monthLoop_stop minT maxT ofs k hstop]
    exact ⟨by simp, List.Pairwise.nil⟩
  | succ n ih =>
    intro k hk
    by_cases hguard : firstDayIdx k * msPerDay + ofs ≤ maxT
    case neg =>
      rw [monthLoop_stop minT maxT ofs k (by omega)]
      exact ⟨by simp, List.Pairwise.nil⟩
    case pos =>
      rw [monthLoop_go minT maxT ofs k hguard]
      have hstep : firstDayIdx k < firstDayIdx (k + 1) := firstDayIdx_lt_succ k
      have hmeas : (maxT + 1 - (firstDayIdx (k + 1) * msPerDay + ofs)).toNat ≤ n := by
        simp only [msPerDay] at hk hguard ⊢
        omega
      obtain ⟨ihAll, ihPw⟩ := ih (k + 1) hmeas
      have hLlt : leftPercent minT (maxT - minT) (firstDayIdx k * msPerDay + ofs) <
          leftPercent minT (maxT - minT) (firstDayIdx (k + 1) * msPerDay + ofs) := by
        apply leftPercent_lt _ _ htot
        simp only [msPerDay]
        omega
      constructor
      · intro g hg
        rcases List.mem_append.mp hg with hgi | hgt
        · obtain ⟨hEq, h0, h100⟩ := gridItem_mem _ _ _ _ _ hgi
          exact ⟨h0, h100, le_of_eq hEq.symm⟩
        · obtain ⟨h0, h100, hge⟩ := ihAll g hgt
          exact ⟨h0, h100, le_trans (le_of_lt hLlt) hge⟩
      · rw [List.pairwise_append]
        refine ⟨?_, ihPw, ?_⟩
        · unfold gridItem
          split
          · split
            · exact List.pairwise_singleton _ _
            · exact List.Pairwise.nil
          · exact List.Pairwise.nil
        · intro a ha b hb
          obtain ⟨hEq, _, _⟩ := gridItem_mem _ _ _ _ _ ha
          obtain ⟨_, _, hge⟩ := ihAll b hb
          rw [hEq]
          exact lt_of_lt_of_le hLlt hge

/-- C3: for every window of strictly positive duration, every generated
month gridline has a position between 0 and 100 inclusive, and the sequence
of gridlines has strictly increasing positions. -/
theorem c3_gridlines (minT maxT : ℤ) (htot : 0 < maxT - minT) :
    (∀ g ∈ timelineMonths minT maxT, 0 ≤ g.left ∧ g.left ≤ 100) ∧
    List.Pairwise (fun a b => a.left < b.left) (timelineMonths minT maxT) := by
  have hdef : timelineMonths minT maxT =
      monthLoop minT maxT (minT % msPerDay)
        (12 * (civilFromDay (minT / msPerDay)).1 + ((civilFromDay (minT / msPerDay)).2 : ℤ)) := rfl
  rw [hdef]
  obtain ⟨hAll, hPw⟩ := monthLoop_inv minT maxT (minT % msPerDay) htot _ _ (le_refl _)
  exact ⟨fun g hg => ⟨(hAll g hg).1, (hAll g hg).2.1⟩, hPw⟩

/-- C3 witness: the gridline properties instantiated on a concrete 40-day window. -/
theorem c3_witness :
    (0 : ℤ) < 40 * msPerDay - 0 ∧
    ((∀ g ∈ timelineMonths 0 (40 * msPerDay), 0 ≤ g.left ∧ g.left ≤ 100) ∧
     List.Pairwise (fun a b => a.left < b.left) (timelineMonths 0 (40 * msPerDay))) :=
  ⟨by decide, c3_gridlines 0 (40 * msPerDay) (by decide)⟩

theorem boundsFold_le (now : ℤ) :
    ∀ (ps : List Project) (a : ℤ × ℤ),
      (ps.foldl (boundsStep now) a).1 ≤ a.1 ∧ a.2 ≤ (ps.foldl (boundsStep now) a).2 ∧
      ∀ q ∈ ps, (ps.foldl (boundsStep now) a).1 ≤ startMs q now ∧
        endMs q now ≤ (ps.foldl (boundsStep now) a).2 := by
  intro ps
  induction ps with
  | nil =>
    intro a
    exact ⟨le_refl _, le_refl _, by simp⟩
  | cons q ps ih =>
    intro a
    obtain ⟨h1, h2, h3⟩ := ih (boundsStep now a q)
    have hb1 : (boundsStep now a q).1 ≤ a.1 := by
      simp only [boundsStep]
      split <;> omega
    have hb2 : a.2 ≤ (boundsStep now a q).2 := by
      simp only [boundsStep]
      split <;> omega
    have hq1 : (boundsStep now a q).1 ≤ startMs q now := by
      simp only [boundsStep]
      split <;> omega
    have hq2 : endMs q now ≤ (boundsStep now a q).2 := by
      simp only [boundsStep]
      split <;> omega
    rw [List.foldl_cons]
    refine ⟨le_trans h1 hb1, le_trans hb2 h2, ?_⟩
    intro r hr
    rcases List.mem_cons.mp hr with hre | hr2
    · subst hre
      exact ⟨le_trans h1 hq1, le_trans hq2 h2⟩
    · exact h3 r hr2

/-- C2 counterexample: a project carrying only a past end date is a valid
input to the bounds pass (its normalized start defaults to the evaluation
instant), yet with evaluation time 2024-06-15 the padded window around
`projE` has negative span, so `totalDurationMs > 0` fails and the layout
returns no timeline. -/
theorem c2_counterexample :
    [projE].filter hasDate ≠ [] ∧
    ((computeBounds nowJune15 ([projE].filter hasDate)).2 + 45 * msPerDay) -
      ((computeBounds nowJune15 ([projE].filter hasDate)).1 - 15 * msPerDay) < 0 ∧
    timelineData [projE] nowJune15 = none := by
  exact ⟨by decide, by decide, rfl⟩

/-- C2 amended: for a non-empty sequence of normalized project intervals in
which every interval also satisfies the DateInterval invariant
`start <= end`, the pre-padding bounds lie below every start and above every
end, and the padded window has strictly positive duration. Without the
invariant the positivity claim fails (see the counterexample). -/
theorem c2_amended (projects : List Project) (now : ℤ)
    (hne : projects.filter hasDate ≠ [])
    (hwf : ∀ p ∈ projects.filter hasDate, startMs p now ≤ endMs p now) :
    (∀ p ∈ projects.filter hasDate,
      (computeBounds now (projects.filter hasDate)).1 ≤ startMs p now) ∧
    (∀ p ∈ projects.filter hasDate,
      endMs p now ≤ (computeBounds now (projects.filter hasDate)).2) ∧
    0 < ((computeBounds now (projects.filter hasDate)).2 + 45 * msPerDay) -
        ((computeBounds now (projects.filter hasDate)).1 - 15 * msPerDay) := by
  obtain ⟨p, ps, hcons⟩ := List.exists_cons_of_ne_nil hne
  rw [hcons] at hwf ⊢
  obtain ⟨h1, h2, h3⟩ := boundsFold_le now ps (startMs p now, endMs p now)
  have hcb : computeBounds now (p :: ps) =
      ps.foldl (boundsStep now) (startMs p now, endMs p now) := rfl
  rw [hcb]
  have hmem : ∀ r ∈ p :: ps,
      (ps.foldl (boundsStep now) (startMs p now, endMs p now)).1 ≤ startMs r now ∧
      endMs r now ≤ (ps.foldl (boundsStep now) (startMs p now, endMs p now)).2 := by
    intro r hr
    rcases List.mem_cons.mp hr with hre | hr2
    · subst hre
      exact ⟨h1, h2⟩
    · exact h3 r hr2
  refine ⟨fun r hr => (hmem r hr).1, fun r hr => (hmem r hr).2, ?_⟩
  have hps : startMs p now ≤ endMs p now := hwf p (List.mem_cons_self p ps)
  have hd : msPerDay = 86400000 := rfl
  have hle := le_trans h1 (le_trans hps h2)
  omega

/-- C2 witness: the amended bounds statement instantiated on `projA`. -/
theorem c2_witness :
    ([projA].filter hasDate ≠ []) ∧
    (∀ p ∈ [projA].filter hasDate, startMs p 0 ≤ endMs p 0) ∧
    ((∀ p ∈ [projA].filter hasDate,
        (computeBounds 0 ([projA].filter hasDate)).1 ≤ startMs p 0) ∧
     (∀ p ∈ [projA].filter hasDate,
        endMs p 0 ≤ (computeBounds 0 ([projA].filter hasDate)).2) ∧
     0 < ((computeBounds 0 ([projA].filter hasDate)).2 + 45 * msPerDay) -
         ((computeBounds 0 ([projA].filter hasDate)).1 - 15 * msPerDay)) :=
  ⟨by decide, by decide, c2_amended [projA] 0 (by decide) (by decide)⟩

/-- C1 counterexample: in the timeline computed for `projA` and `projB`
(the latter a reversed entry whose start lies beyond the padded window), the
rendered bar of `projB` has `startPercent = 2984/17`, above 100, while the
formula of the claim clamps it to 100 — so the code does not equal the
claimed two-sided clamp. -/
theorem c1_counterexample :
    timelineData [projA, projB] 0 =
      some ⟨19708 * msPerDay, 20133 * msPerDay, 425 * msPerDay,
        timelineMonths (19708 * msPerDay) (20133 * msPerDay)⟩ ∧
    (projectBar (19708 * msPerDay) (425 * msPerDay) 0 projB).startPercent = 2984 / 17 ∧
    (specBar (19708 * msPerDay) (425 * msPerDay) 0 projB).startPercent = 100 ∧
    ((2984 / 17 : ℚ) ≠ 100) := by
  refine ⟨rfl, ?_, ?_, by norm_num⟩
  · show max 0 (leftPercent (19708 * msPerDay) (425 * msPerDay) (startMs projB 0)) = 2984 / 17
    have h : leftPercent (19708 * msPerDay) (425 * msPerDay) (startMs projB 0) = 2984 / 17 := by
      norm_num [leftPercent, startMs, projB, ymdMs, dayNumber, firstDayOfMonth, daysBeforeYear,
        monthOffset, isLeap, msPerDay]
    rw [h]
    norm_num
  · show min 100 (max 0 (leftPercent (19708 * msPerDay) (425 * msPerDay) (startMs projB 0))) = 100
    have h : leftPercent (19708 * msPerDay) (425 * msPerDay) (startMs projB 0) = 2984 / 17 := by
      norm_num [leftPercent, startMs, projB, ymdMs, dayNumber, firstDayOfMonth, daysBeforeYear,
        monthOffset, isLeap, msPerDay]
    rw [h]
    norm_num

/-- C1 amended: for a bar laid out against a window of positive duration,
the code clamps each edge one-sidedly — `startPercent = max(0, rawStart)`
(no upper clamp) and `endPercent = min(100, rawEnd)` (no lower clamp) — and
`widthPercent = max(1, endPercent - startPercent)`, so every bar still has
`widthPercent >= 1`, and a project whose normalized start equals its
normalized end yields `widthPercent = 1`. -/
theorem c1_amended (minT total now : ℤ) (p : Project) (htot : 0 < total) :
    projectBar minT total now p =
      ⟨max 0 (leftPercent minT total (startMs p now)),
       min 100 (leftPercent minT total (endMs p now)),
       max 1 (min 100 (leftPercent minT total (endMs p now)) -
         max 0 (leftPercent minT total (startMs p now)))⟩ ∧
    1 ≤ (projectBar minT total now p).widthPercent ∧
    (startMs p now = endMs p now → (projectBar minT total now p).widthPercent = 1) := by
  refine ⟨rfl, le_max_left _ _, fun hse => ?_⟩
  show max 1 (min 100 (leftPercent minT total (endMs p now)) -
      max 0 (leftPercent minT total (startMs p now))) = 1
  rw [hse]
  have h1 : min 100 (leftPercent minT total (endMs p now)) ≤
      max 0 (leftPercent minT total (endMs p now)) :=
    le_trans (min_le_right _ _) (le_max_right _ _)
  exact max_eq_left (by linarith)

/-- C1 witness: the amended bar statement instantiated on the single-day project. -/
theorem c1_witness :
    (0 : ℤ) < 60 * msPerDay ∧
    startMs projW 0 = endMs projW 0 ∧
    1 ≤ (projectBar (19723 * msPerDay) (60 * msPerDay) 0 projW).widthPercent ∧
    (projectBar (19723 * msPerDay) (60 * msPerDay) 0 projW).widthPercent = 1 :=
  ⟨by decide, by decide,
   (c1_amended (19723 * msPerDay) (60 * msPerDay) 0 projW (by decide)).2.1,
   (c1_amended (19723 * msPerDay) (60 * msPerDay) 0 projW (by decide)).2.2 (by decide)⟩

/-- C4 counterexample: the week filter keeps a log dated 2024-07-01 when
evaluated on 2024-06-15, although that date does not fall within the
trailing 7-day window ending at evaluation time — the code has no upper
bound on the date, so it does not keep exactly the records in the window. -/
theorem c4_counterexample :
    displayedLogs [log0701] true nowJune15 "" "" "" = [log0701] ∧
    weekWindowSpec nowJune15 log0701 = false := by
  exact ⟨by decide, by decide⟩

/-- C4 amended: the week predicate keeps exactly the records whose parsed
date timestamp is at least the evaluation timestamp minus 7 days — a
one-sided, full-timestamp comparison (the lower bound carries the
evaluation time of day, and future-dated records are always kept). With
evaluation time 2024-06-15, a log dated 2024-06-01 is excluded and a log
dated 2024-06-10 is included. -/
theorem c4_amended :
    (∀ (log : DailyLog) (now : ℤ),
      weekKeep now log = decide (now - 7 * msPerDay ≤ ymdMs log.date)) ∧
    displayedLogs [log0601, log0610] true nowJune15 "" "" "" = [log0610] := by
  constructor
  · intro log now
    rw [weekKeep, ← decide_not, decide_eq_decide]
    omega
  · decide

theorem logPred_eq_conj (fw : Bool) (now : ℤ) (q att tag : String) (log : DailyLog) :
    logPred fw now q att tag log = logPredConj fw now q att tag log := by
  cases fw <;> simp only [logPred, logPredConj] <;> split_ifs <;> simp_all <;> tauto

/-- C5: the displayed collection is the stable filter of the input by the
conjunction of the active predicates (an inactive, empty predicate being
vacuously true): it equals filtering by the conjunction predicate, it is a
subsequence of the input (input order preserved), and with every predicate
inactive it is the input itself. -/
theorem c5_filter (logs : List DailyLog) (fw : Bool) (now : ℤ) (q att tag : String) :
    displayedLogs logs fw now q att tag = logs.filter (logPredConj fw now q att tag) ∧
    (displayedLogs logs fw now q att tag).Sublist logs ∧
    displayedLogs logs false now "" "" "" = logs := by
  refine ⟨?_, List.filter_sublist _, ?_⟩
  · unfold displayedLogs
    congr 1
    funext log
    exact logPred_eq_conj fw now q att tag log
  · unfold displayedLogs
    apply List.filter_eq_self.mpr
    intro a _
    simp [logPred]

/-- C8: filtering is idempotent — applying the filter to its own output,
with the same predicate values and the same evaluation time, returns the
output unchanged. -/
theorem c8_idempotent (logs : List DailyLog) (fw : Bool) (now : ℤ) (q att tag : String) :
    displayedLogs (displayedLogs logs fw now q att tag) fw now q att tag =
      displayedLogs logs fw now q att tag := by
  unfold displayedLogs
  rw [List.filter_filter]
  have h : (fun a => logPred fw now q att tag a && logPred fw now q att tag a) =
      logPred fw now q att tag := by
    funext a
    rw [Bool.and_self]
  rw [h]

/-- C6: the timeline layout signals absence instead of fabricating bounds
or dividing by zero — when no project carries a date the result is `none`,
and any produced layout has strictly positive total duration. -/
theorem c6_guards (projects : List Project) (now : ℤ) :
    (projects.filter hasDate = [] → timelineData projects now = none) ∧
    (∀ td, timelineData projects now = some td → 0 < td.totalDuration) := by
  constructor
  · intro hempty
    unfold timelineData
    split
    · rfl
    · simp [hempty]
  · intro td htd
    unfold timelineData at htd
    split at htd
    · exact absurd htd (by simp)
    · dsimp only at htd
      split at htd
      · exact absurd htd (by simp)
      · split at htd
        · exact absurd htd (by simp)
        · rename_i hpos
          obtain rfl : td = ⟨_, _, _, _⟩ := (Option.some_inj.mp htd).symm
          simpa using lt_of_not_ge (fun hge => hpos (by omega))

/-- C6 witness: a collection with one undated project yields no timeline. -/
theorem c6_witness : timelineData [pNoDates] 0 = none :=
  (c6_guards [pNoDates] 0).1 (by decide)

theorem logLe_trans : ∀ a b c : DailyLog,
    logLe a b = true → logLe b c = true → logLe a c = true := by
  intro a b c
  simp only [logLe, decide_eq_true_eq]
  omega

theorem logLe_total : ∀ a b : DailyLog, (logLe a b || logLe b a) = true := by
  intro a b
  simp only [logLe, Bool.or_eq_true, decide_eq_true_eq]
  omega

theorem replace_ids (logs : List DailyLog) (log : DailyLog) :
    (logs.map (fun l => if l.id == log.id then log else l)).map (fun l => l.id) =
      logs.map (fun l => l.id) := by
  rw [List.map_map]
  apply List.map_congr_left
  intro a _
  simp only [Function.comp_apply]
  by_cases h : a.id == log.id
  · rw [if_pos h, (beq_iff_eq.mp h)]
  · rw [if_neg h]

theorem saveLog_sorted (logs : List DailyLog) (log : DailyLog) :
    List.Pairwise (fun a b => ymdMs b.date ≤ ymdMs a.date) (saveLog logs log) := by
  have hs := List.sorted_mergeSort logLe_trans logLe_total
      (if (logs.find? (fun l => l.id == log.id)).isSome then
         logs.map (fun l => if l.id == log.id then log else l)
       else log :: logs)
  exact hs.imp (fun hab => of_decide_eq_true hab)

theorem saveLog_nodup (logs : List DailyLog) (log : DailyLog)
    (hnd : (logs.map (fun l => l.id)).Nodup) :
    ((saveLog logs log).map (fun l => l.id)).Nodup := by
  have hperm : (saveLog logs log).Perm
      (if (logs.find? (fun l => l.id == log.id)).isSome then
         logs.map (fun l => if l.id == log.id then log else l)
       else log :: logs) :=
    List.mergeSort_perm _ logLe
  rw [(hperm.map (fun l => l.id)).nodup_iff]
  by_cases hf : (logs.find? (fun l => l.id == log.id)).isSome
  · rw [if_pos hf, replace_ids]
    exact hnd
  · rw [if_neg hf]
    rw [List.map_cons, List.nodup_cons]
    refine ⟨?_, hnd⟩
    intro hmem
    obtain ⟨a, ha, haid⟩ := List.mem_map.mp hmem
    apply hf
    rw [List.find?_isSome]
    exact ⟨a, ha, by rw [beq_iff_eq, haid]⟩

/-- C10: every log collection reachable from the empty one through
`saveLog` (replace by id or insert, then stable re-sort by date descending)
and `deleteLog` (remove by id) is sorted in non-increasing date order and
has pairwise distinct ids; and `deleteLog` returns a subsequence of its
input, so it preserves order. -/
theorem c10_invariant :
    (∀ logs, ReachableLogs logs →
      List.Pairwise (fun a b => ymdMs b.date ≤ ymdMs a.date) logs ∧
      (logs.map (fun l => l.id)).Nodup) ∧
    (∀ (logs : List DailyLog) (i : String), (deleteLog logs i).Sublist logs) := by
  constructor
  · intro logs h
    induction h with
    | nil => exact ⟨List.Pairwise.nil, List.nodup_nil⟩
    | save log hr ih => exact ⟨saveLog_sorted _ _, saveLog_nodup _ _ ih.2⟩
    | del i hr ih =>
      exact ⟨List.Pairwise.sublist (List.filter_sublist _) ih.1,
        List.Nodup.sublist ((List.filter_sublist _).map _) ih.2⟩
  · intro logs i
    exact List.filter_sublist _

/-- C10 witness: the invariant instantiated on the collection obtained by one save. -/
theorem c10_witness :
    List.Pairwise (fun a b => ymdMs b.date ≤ ymdMs a.date) (saveLog [] log0601) ∧
    ((saveLog [] log0601).map (fun l => l.id)).Nodup :=
  c10_invariant.1 (saveLog [] log0601) (ReachableLogs.save log0601 ReachableLogs.nil)

theorem demoLeft_jan :
    leftPercent (19717 * msPerDay) (19803 * msPerDay - 19717 * msPerDay)
      (firstDayIdx 24288 * msPerDay + 0) = 300 / 43 := by
  have hfd : firstDayIdx 24288 = 19723 := by decide
  rw [hfd]
  norm_num [leftPercent, msPerDay]

theorem demoLeft_feb :
    leftPercent (19717 * msPerDay) (19803 * msPerDay - 19717 * msPerDay)
      (firstDayIdx 24289 * msPerDay + 0) = 1850 / 43 := by
  have hfd : firstDayIdx 24289 = 19754 := by decide
  rw [hfd]
  norm_num [leftPercent, msPerDay]

theorem demoLeft_mar :
    leftPercent (19717 * msPerDay) (19803 * msPerDay - 19717 * msPerDay)
      (firstDayIdx 24290 * msPerDay + 0) = 3300 / 43 := by
  have hfd : firstDayIdx 24290 = 19783 := by decide
  rw [hfd]
  norm_num [leftPercent, msPerDay]

theorem demoMonths_eq :
    timelineMonths (19717 * msPerDay) (19803 * msPerDay) =
      [⟨"Jan 24", 300 / 43⟩, ⟨"Feb 24", 1850 / 43⟩, ⟨"Mar 24", 3300 / 43⟩] := by
  have h0 : timelineMonths (19717 * msPerDay) (19803 * msPerDay) =
      monthLoop (19717 * msPerDay) (19803 * msPerDay) 0 24287 := rfl
  have g1 : gridItem (19717 * msPerDay) (19803 * msPerDay - 19717 * msPerDay) 0 24287 = [] := by
    simp only [gridItem]
    rw [if_neg (by decide)]
  have g2 : gridItem (19717 * msPerDay) (19803 * msPerDay - 19717 * msPerDay) 0 24288 =
      [⟨"Jan 24", 300 / 43⟩] := by
    simp only [gridItem]
    rw [if_pos (by decide), if_pos (by rw [demoLeft_jan]; norm_num), demoLeft_jan,
      show monthLabel 24288 = "Jan 24" by decide]
  have g3 : gridItem (19717 * msPerDay) (19803 * msPerDay - 19717 * msPerDay) 0 24289 =
      [⟨"Feb 24", 1850 / 43⟩] := by
    simp only [gridItem]
    rw [if_pos (by decide), if_pos (by rw [demoLeft_feb]; norm_num), demoLeft_feb,
      show monthLabel 24289 = "Feb 24" by decide]
  have g4 : gridItem (19717 * msPerDay) (19803 * msPerDay - 19717 * msPerDay) 0 24290 =
      [⟨"Mar 24", 3300 / 43⟩] := by
    simp only [gridItem]
    rw [if_pos (by decide), if_pos (by rw [demoLeft_mar]; norm_num), demoLeft_mar,
      show monthLabel 24290 = "Mar 24" by decide]
  rw [h0,
    monthLoop_go _ _ _ _ (by decide),
    monthLoop_go _ _ _ _ (by decide),
    monthLoop_go _ _ _ _ (by decide),
    monthLoop_go _ _ _ _ (by decide),
    monthLoop_stop _ _ _ _ (by decide)]
  norm_num [g1, g2, g3, g4]

/-- C9 counterexample: for the worked example of spec section 8 the padded
bounds are exactly 2023-12-26 and 2024-03-21, but the gridline for December
2023 is not generated (the first of that month lies before the padded
minimum and is skipped), and the first bar has
`startPercent = 750/43`, about 17.4 percent, not about 15.8 percent. -/
theorem c9_counterexample :
    timelineData [demoP1, demoP2] 0 =
      some ⟨ymdMs ⟨2023, 12, 26⟩, ymdMs ⟨2024, 3, 21⟩, 86 * msPerDay,
        timelineMonths (19717 * msPerDay) (19803 * msPerDay)⟩ ∧
    (timelineMonths (19717 * msPerDay) (19803 * msPerDay)).map GridMonth.label =
      ["Jan 24", "Feb 24", "Mar 24"] ∧
    "Dec 23" ∉ (timelineMonths (19717 * msPerDay) (19803 * msPerDay)).map GridMonth.label ∧
    (projectBar (19717 * msPerDay) (86 * msPerDay) 0 demoP1).startPercent = 750 / 43 ∧
    ¬((750 / 43 : ℚ) < 16) := by
  refine ⟨rfl, ?_, ?_, ?_, by norm_num⟩
  · rw [demoMonths_eq]
    decide
  · rw [demoMonths_eq]
    decide
  · show max 0 (leftPercent (19717 * msPerDay) (86 * msPerDay) (startMs demoP1 0)) = 750 / 43
    have h : leftPercent (19717 * msPerDay) (86 * msPerDay) (startMs demoP1 0) = 750 / 43 := by
      norm_num [leftPercent, startMs, demoP1, ymdMs, dayNumber, firstDayOfMonth, daysBeforeYear,
        monthOffset, isLeap, msPerDay]
    rw [h]
    norm_num

/-- C9 amended: for the worked example the padded bounds are 2023-12-26 and
2024-03-21; the gridlines are January, February and March 2024 in that
order with strictly increasing percents (December 2023 falls before the
padded minimum and is skipped); the first bar starts at `750/43`, about
17.4 percent; the second bar starts further right at `1850/43`; and both
bars have width at least 1. -/
theorem c9_amended :
    timelineData [demoP1, demoP2] 0 =
      some ⟨ymdMs ⟨2023, 12, 26⟩, ymdMs ⟨2024, 3, 21⟩, 86 * msPerDay,
        timelineMonths (19717 * msPerDay) (19803 * msPerDay)⟩ ∧
    timelineMonths (19717 * msPerDay) (19803 * msPerDay) =
      [⟨"Jan 24", 300 / 43⟩, ⟨"Feb 24", 1850 / 43⟩, ⟨"Mar 24", 3300 / 43⟩] ∧
    List.Pairwise (fun a b => a.left < b.left)
      (timelineMonths (19717 * msPerDay) (19803 * msPerDay)) ∧
    (projectBar (19717 * msPerDay) (86 * msPerDay) 0 demoP1).startPercent = 750 / 43 ∧
    (projectBar (19717 * msPerDay) (86 * msPerDay) 0 demoP2).startPercent = 1850 / 43 ∧
    (750 / 43 : ℚ) < 1850 / 43 ∧
    1 ≤ (projectBar (19717 * msPerDay) (86 * msPerDay) 0 demoP1).widthPercent ∧
    1 ≤ (projectBar (19717 * msPerDay) (86 * msPerDay) 0 demoP2).widthPercent := by
  refine ⟨rfl, demoMonths_eq, ?_, ?_, ?_, by norm_num, le_max_left _ _, le_max_left _ _⟩
  · rw [demoMonths_eq]
    norm_num [List.pairwise_cons]
  · show max 0 (leftPercent (19717 * msPerDay) (86 * msPerDay) (startMs demoP1 0)) = 750 / 43
    have h : leftPercent (19717 * msPerDay) (86 * msPerDay) (startMs demoP1 0) = 750 / 43 := by
      norm_num [leftPercent, startMs, demoP1, ymdMs, dayNumber, firstDayOfMonth, daysBeforeYear,
        monthOffset, isLeap, msPerDay]
    rw [h]
    norm_num
  · show max 0 (leftPercent (19717 * msPerDay) (86 * msPerDay) (startMs demoP2 0)) = 1850 / 43
    have h : leftPercent (19717 * msPerDay) (86 * msPerDay) (startMs demoP2 0) = 1850 / 43 := by
      norm_num [leftPercent, startMs, demoP2, ymdMs, dayNumber, firstDayOfMonth, daysBeforeYear,
        monthOffset, isLeap, msPerDay]
    rw [h]
    norm_num

/-- C7 witness: the fallback behaviour instantiated with an absent credential. -/
theorem c7_witness :
    generateTextImprovement none (Except.error "boom") "draft" "ctx" = "draft" ∧
    generateMonthlySummary none (Except.error "boom") "logs" = "AI services unavailable." :=
  ⟨(c7_fallbacks none (Except.error "boom") "draft" "ctx" "logs").2.1 "boom" rfl,
   (c7_fallbacks none (Except.error "boom") "draft" "ctx" "logs").2.2.1 rfl⟩

end DDP

section CalendarChecks
open DDP

example : dayNumber 1970 0 1 = 0 := by decide
example : dayNumber 2024 0 1 = 19723 := by decide
example : dayNumber 2024 0 10 = 19732 := by decide
example : dayNumber 2023 11 26 = 19717 := by decide
example : dayNumber 2024 2 21 = 19803 := by decide
example : dayNumber 2024 1 29 = 19782 := by decide
example : civilFromDay 19717 = (2023, 11) := by decide
example : civilFromDay 19732 = (2024, 0) := by decide
example : civilFromDay 0 = (1970, 0) := by decide
example : firstDayIdx (2023 * 12 + 11) = dayNumber 2023 11 1 := by decide

end CalendarChecks
